import Mathlib

/-! Verification development for the static-analysis core of the clarity-lsp
repository: the contract analysis record (`src/clarity/analysis/types.rs`),
the two-phase trait compliance checker
(`src/clarity/analysis/trait_checker/{mod,post_type_check}.rs`) and the six
asset/token type-check handlers
(`src/clarity/analysis/type_checker/natives/assets.rs`).

Collections: the Rust code stores catalogs in `BTreeMap`/`BTreeSet`.  They are
embedded as association lists kept in strictly sorted key order, with the
standard ordered-insert semantics, so iteration order in the embedding is the
iteration order of the originals.
-/

/-- Interned identifier string (`ClarityName` in the source). -/
abbrev ClarityName := String

/-- Fully qualified contract identifier (issuer principal plus contract name). -/
structure QualifiedContractIdentifier where
  issuer : String
  name : String
  deriving DecidableEq, Repr

/-- Fully qualified trait identity: trait name plus declaring contract. -/
structure TraitIdentifier where
  name : ClarityName
  contract_identifier : QualifiedContractIdentifier
  deriving DecidableEq, Repr

/-- Injective key used to order `TraitIdentifier` lexicographically
(name, then issuer, then contract name), mirroring the derived `Ord`. -/
def TraitIdentifier.orderKey (t : TraitIdentifier) :
    String ×ₗ (String ×ₗ String) :=
  toLex (t.name, toLex (t.contract_identifier.issuer, t.contract_identifier.name))

theorem TraitIdentifier.orderKey_injective :
    Function.Injective TraitIdentifier.orderKey := by
  intro a b h
  cases a with
  | mk an ac =>
    cases b with
    | mk bn bc =>
      cases ac
      cases bc
      simp only [orderKey, toLex, Equiv.refl_apply, Prod.mk.injEq] at h
      obtain ⟨h1, h2, h3⟩ := h
      simp_all

instance : LinearOrder TraitIdentifier :=
  LinearOrder.lift' TraitIdentifier.orderKey TraitIdentifier.orderKey_injective

/-- Modelled from the spec: the type-signature model is an external
collaborator ("nominal and structural type values, including a distinguished
reference-to-interface type carrying a local alias name"); only the variants
the analyzed code manipulates are represented. -/
inductive TypeSignature where
  | NoType
  | IntType
  | UIntType
  | BoolType
  | PrincipalType
  | BufferType (len : Nat)
  | OptionalType (inner : TypeSignature)
  | ResponseType (okType : TypeSignature) (errType : TypeSignature)
  | TraitReferenceType (name : ClarityName)
  deriving DecidableEq, Repr

/-- Modelled from the spec: the structural `admits(candidate)` compatibility
predicate of the external type model, with the nominal early branch for the
interface-reference variant ("identity comparison" on the carried alias) and
structural rules ("narrower buffer lengths") elsewhere. -/
def admitsType : TypeSignature → TypeSignature → Bool
  | .IntType, .IntType => true
  | .UIntType, .UIntType => true
  | .BoolType, .BoolType => true
  | .PrincipalType, .PrincipalType => true
  | .BufferType a, .BufferType b => b ≤ a
  | .OptionalType t, .OptionalType s => admitsType t s
  | .ResponseType t1 t2, .ResponseType s1 s2 => admitsType t1 s1 && admitsType t2 s2
  | .TraitReferenceType a, .TraitReferenceType b => a == b
  | _, _ => false

/-- Modelled from the spec: the external type model "provides ... a `size()`
cost metric"; any deterministic structural size works for the claims. -/
def TypeSignature.type_size : TypeSignature → Nat
  | .NoType => 1
  | .IntType => 16
  | .UIntType => 16
  | .BoolType => 1
  | .PrincipalType => 148
  | .BufferType len => 4 + len
  | .OptionalType t => 1 + t.type_size
  | .ResponseType a b => 1 + a.type_size + b.type_size
  | .TraitReferenceType _ => 276

/-- Modelled from the spec: payload of literal expressions (opaque here). -/
inductive ClarityValue where
  | IntV (i : Int)
  | UIntV (n : Nat)
  | BoolV (b : Bool)
  | PrincipalV (p : String)
  deriving DecidableEq, Repr

/-- Modelled from the spec: AST node produced by the external parser; the
variant set is the one named in `src/clarity/ast/expression_identifier/mod.rs`
(`AtomValue | LiteralValue | Atom | TraitReference | Field | List`). -/
inductive SymbolicExpression where
  | AtomValue (v : ClarityValue)
  | Atom (name : ClarityName)
  | LiteralValue (v : ClarityValue)
  | List (exprs : List SymbolicExpression)
  | TraitReference (name : ClarityName)
  | Field (f : TraitIdentifier)

instance : Inhabited SymbolicExpression := ⟨SymbolicExpression.List []⟩

/-- Source `SymbolicExpression::match_atom`: `Some(name)` exactly on the `Atom`
variant. -/
def SymbolicExpression.match_atom : SymbolicExpression → Option ClarityName
  | .Atom name => some name
  | _ => none

/-- A named, typed fixed-function parameter (`FunctionArg`). -/
structure FunctionArg where
  signature : TypeSignature
  name : ClarityName
  deriving DecidableEq, Repr

/-- Body of the fixed-arity shape of `FunctionType`. -/
structure FixedFunction where
  args : List FunctionArg
  returns : TypeSignature
  deriving DecidableEq, Repr

/-- Modelled from the spec: a function signature "is one of: fixed-arity ...,
variadic ..., union-of-fixed-arg-type-sets, or one of two built-in arithmetic
shapes". -/
inductive FunctionType where
  | Fixed (f : FixedFunction)
  | Variadic (input : TypeSignature) (output : TypeSignature)
  | UnionArgs (args : List TypeSignature) (output : TypeSignature)
  | ArithmeticVariadic
  | ArithmeticBinary
  deriving DecidableEq, Repr

/-- Trait method signature (`FunctionSignature`): bare parameter types plus a
return type. -/
structure FunctionSignature where
  args : List TypeSignature
  returns : TypeSignature
  deriving DecidableEq, Repr

/-- Embedding of `BTreeSet::insert` on the sorted-list embedding. -/
def btreeInsert {α : Type} [LinearOrder α] [DecidableEq α] (a : α) :
    List α → List α
  | [] => [a]
  | b :: t =>
    if a < b then a :: b :: t
    else if a = b then b :: t
    else b :: btreeInsert a t

/-- Embedding of `BTreeMap::insert` on the sorted-association-list embedding (replaces the
value on an existing key). -/
def btreeMapInsert {κ ν : Type} [LinearOrder κ] [DecidableEq κ] (k : κ) (v : ν) :
    List (κ × ν) → List (κ × ν)
  | [] => [(k, v)]
  | (k', v') :: t =>
    if k < k' then (k, v) :: (k', v') :: t
    else if k = k' then (k', v) :: t
    else (k', v') :: btreeMapInsert k v t

/-- Embedding of `BTreeMap::get` on the association-list embedding. -/
def btreeMapGet {κ ν : Type} [DecidableEq κ] (m : List (κ × ν)) (k : κ) :
    Option ν :=
  match m with
  | [] => none
  | (k', v') :: t => if k = k' then some v' else btreeMapGet t k

/-- Embedding of `BTreeMap::from` an insertion sequence (declaration order is lost; the map
retains only the sorted key order). -/
def btreeMapOfList {κ ν : Type} [LinearOrder κ] [DecidableEq κ]
    (l : List (κ × ν)) : List (κ × ν) :=
  l.foldl (fun m p => btreeMapInsert p.1 p.2 m) []

theorem mem_btreeInsert {α : Type} [LinearOrder α] [DecidableEq α]
    (a x : α) (l : List α) (h : x ∈ btreeInsert a l) : x = a ∨ x ∈ l := by
  induction l with
  | nil =>
    simp [btreeInsert] at h
    exact Or.inl h
  | cons b t ih =>
    simp only [btreeInsert] at h
    split at h
    · rcases List.mem_cons.mp h with h | h
      · exact Or.inl h
      · exact Or.inr h
    · split at h
      · exact Or.inr h
      · rcases List.mem_cons.mp h with h | h
        · exact Or.inr (List.mem_cons.mpr (Or.inl h))
        · rcases ih h with h | h
          · exact Or.inl h
          · exact Or.inr (List.mem_cons.mpr (Or.inr h))

theorem sorted_btreeInsert {α : Type} [LinearOrder α] [DecidableEq α]
    (a : α) (l : List α) (h : l.Sorted (· < ·)) :
    (btreeInsert a l).Sorted (· < ·) := by
  induction l with
  | nil => simp [btreeInsert]
  | cons b t ih =>
    rw [List.sorted_cons] at h
    obtain ⟨hb, ht⟩ := h
    simp only [btreeInsert]
    split
    · rename_i hab
      rw [List.sorted_cons]
      refine ⟨?_, ?_⟩
      · intro x hx
        rcases List.mem_cons.mp hx with hx | hx
        · exact hx ▸ hab
        · exact lt_trans hab (hb x hx)
      · rw [List.sorted_cons]
        exact ⟨hb, ht⟩
    · split
      · rename_i heq
        rw [List.sorted_cons]
        exact ⟨hb, ht⟩
      · rename_i hnlt hne
        rw [List.sorted_cons]
        refine ⟨?_, ih ht⟩
        intro x hx
        rcases mem_btreeInsert a x t hx with hx | hx
        · subst hx
          exact lt_of_le_of_ne (not_lt.mp hnlt) (fun e => hne e.symm)
        · exact hb x hx

theorem mem_btreeMapInsert {κ ν : Type} [LinearOrder κ] [DecidableEq κ]
    (k : κ) (v : ν) (p : κ × ν) (l : List (κ × ν))
    (h : p ∈ btreeMapInsert k v l) : p.1 = k ∨ p ∈ l := by
  induction l with
  | nil =>
    simp only [btreeMapInsert, List.mem_singleton] at h
    exact Or.inl (by rw [h])
  | cons b t ih =>
    simp only [btreeMapInsert] at h
    split at h
    · rcases List.mem_cons.mp h with h | h
      · exact Or.inl (by rw [h])
      · exact Or.inr h
    · split at h
      · rename_i heq
        rcases List.mem_cons.mp h with h | h
        · subst heq
          exact Or.inl (by rw [h])
        · exact Or.inr (List.mem_cons.mpr (Or.inr h))
      · rcases List.mem_cons.mp h with h | h
        · exact Or.inr (List.mem_cons.mpr (Or.inl h))
        · rcases ih h with h | h
          · exact Or.inl h
          · exact Or.inr (List.mem_cons.mpr (Or.inr h))

/-- Keys of the sorted-association-list embedding stay strictly sorted across
inserts. -/
theorem sorted_btreeMapInsert {κ ν : Type} [LinearOrder κ] [DecidableEq κ]
    (k : κ) (v : ν) (l : List (κ × ν))
    (h : l.Pairwise (fun p q => p.1 < q.1)) :
    (btreeMapInsert k v l).Pairwise (fun p q => p.1 < q.1) := by
  induction l with
  | nil => simp [btreeMapInsert]
  | cons b t ih =>
    rw [List.pairwise_cons] at h
    obtain ⟨hb, ht⟩ := h
    simp only [btreeMapInsert]
    split
    · rename_i hab
      rw [List.pairwise_cons]
      refine ⟨?_, ?_⟩
      · intro x hx
        rcases List.mem_cons.mp hx with hx | hx
        · exact hx ▸ hab
        · exact lt_trans hab (hb x hx)
      · rw [List.pairwise_cons]
        exact ⟨hb, ht⟩
    · split
      · rename_i heq
        rw [List.pairwise_cons]
        exact ⟨hb, ht⟩
      · rename_i hnlt hne
        rw [List.pairwise_cons]
        refine ⟨?_, ih ht⟩
        intro x hx
        rcases mem_btreeMapInsert k v x t hx with hx | hx
        · rw [hx]
          exact lt_of_le_of_ne (not_lt.mp hnlt) (fun e => hne e.symm)
        · exact hb x hx

theorem sorted_btreeMapOfList {κ ν : Type} [LinearOrder κ] [DecidableEq κ]
    (l : List (κ × ν)) :
    (btreeMapOfList l).Pairwise (fun p q => p.1 < q.1) := by
  suffices h : ∀ (init : List (κ × ν)),
      init.Pairwise (fun p q => p.1 < q.1) →
      (l.foldl (fun m p => btreeMapInsert p.1 p.2 m) init).Pairwise
        (fun p q => p.1 < q.1) by
    exact h [] (by simp)
  induction l with
  | nil => intro init h; simpa using h
  | cons p t ih =>
    intro init h
    exact ih (btreeMapInsert p.1 p.2 init) (sorted_btreeMapInsert p.1 p.2 init h)

/-- Per-expression-id type map (`TypeMap`), opaque to the claims. -/
structure TypeMap where
  map : List (Nat × TypeSignature)

/-- The contract analysis record (`ContractAnalysis` in
`src/clarity/analysis/types.rs`): everything one contract declares. -/
structure ContractAnalysis where
  contract_identifier : QualifiedContractIdentifier
  private_function_types : List (ClarityName × FunctionType)
  variable_types : List (ClarityName × TypeSignature)
  public_function_types : List (ClarityName × FunctionType)
  read_only_function_types : List (ClarityName × FunctionType)
  map_types : List (ClarityName × (TypeSignature × TypeSignature))
  persisted_variable_types : List (ClarityName × TypeSignature)
  fungible_tokens : List ClarityName
  non_fungible_tokens : List (ClarityName × TypeSignature)
  defined_traits : List (ClarityName × List (ClarityName × FunctionSignature))
  referenced_traits : List (ClarityName × TraitIdentifier)
  implemented_traits : List TraitIdentifier
  top_level_expression_sorting : Option (List Nat)
  expressions : List SymbolicExpression
  type_map : Option TypeMap

/-- Source `ContractAnalysis::new`: every catalog empty, the top-level ordering
initialized to `Some` of an empty vector. -/
def ContractAnalysis.new (contract_identifier : QualifiedContractIdentifier)
    (expressions : List SymbolicExpression) : ContractAnalysis :=
  { contract_identifier := contract_identifier
    expressions := expressions
    type_map := none
    private_function_types := []
    public_function_types := []
    read_only_function_types := []
    variable_types := []
    map_types := []
    persisted_variable_types := []
    defined_traits := []
    referenced_traits := []
    implemented_traits := []
    top_level_expression_sorting := some []
    fungible_tokens := []
    non_fungible_tokens := [] }

/-- Source `ContractAnalysis::add_public_function`. -/
def ContractAnalysis.add_public_function (ca : ContractAnalysis)
    (name : ClarityName) (function_type : FunctionType) : ContractAnalysis :=
  { ca with public_function_types :=
      btreeMapInsert name function_type ca.public_function_types }

/-- Source `ContractAnalysis::add_non_fungible_token`. -/
def ContractAnalysis.add_non_fungible_token (ca : ContractAnalysis)
    (name : ClarityName) (nft_type : TypeSignature) : ContractAnalysis :=
  { ca with non_fungible_tokens :=
      btreeMapInsert name nft_type ca.non_fungible_tokens }

/-- Source `ContractAnalysis::add_fungible_token`. -/
def ContractAnalysis.add_fungible_token (ca : ContractAnalysis)
    (name : ClarityName) : ContractAnalysis :=
  { ca with fungible_tokens := btreeInsert name ca.fungible_tokens }

/-- Source `ContractAnalysis::add_defined_trait`. -/
def ContractAnalysis.add_defined_trait (ca : ContractAnalysis)
    (name : ClarityName)
    (function_types : List (ClarityName × FunctionSignature)) :
    ContractAnalysis :=
  { ca with defined_traits := btreeMapInsert name function_types ca.defined_traits }

/-- Source `ContractAnalysis::add_implemented_trait`. -/
def ContractAnalysis.add_implemented_trait (ca : ContractAnalysis)
    (trait_identifier : TraitIdentifier) : ContractAnalysis :=
  { ca with implemented_traits := btreeInsert trait_identifier ca.implemented_traits }

/-- Source `ContractAnalysis::get_public_function_type`. -/
def ContractAnalysis.get_public_function_type (ca : ContractAnalysis)
    (name : ClarityName) : Option FunctionType :=
  btreeMapGet ca.public_function_types name

/-- Source `ContractAnalysis::get_defined_trait`. -/
def ContractAnalysis.get_defined_trait (ca : ContractAnalysis)
    (name : ClarityName) : Option (List (ClarityName × FunctionSignature)) :=
  btreeMapGet ca.defined_traits name

/-- Source `ContractAnalysis::get_referenced_trait`. -/
def ContractAnalysis.get_referenced_trait (ca : ContractAnalysis)
    (name : ClarityName) : Option TraitIdentifier :=
  btreeMapGet ca.referenced_traits name

/-- The analysis database collaborator: `load_contract(qualified_id)` is a
read-only lookup of a previously completed analysis. -/
def AnalysisDatabase := QualifiedContractIdentifier → Option ContractAnalysis

/-- Source `AnalysisDatabase::load_contract`. -/
def AnalysisDatabase.load_contract (db : AnalysisDatabase)
    (id : QualifiedContractIdentifier) : Option ContractAnalysis :=
  db id

/-- The iterator state of `ExpressionsIterator` in
`src/clarity/analysis/types.rs`. -/
structure ExpressionsIterator where
  expressions : List SymbolicExpression
  sorting : Option (List Nat)
  index : Nat

/-- Source `ContractAnalysis::expressions_iter`. -/
def ContractAnalysis.expressions_iter (ca : ContractAnalysis) :
    ExpressionsIterator :=
  { expressions := ca.expressions
    sorting := ca.top_level_expression_sorting
    index := 0 }

/-- Outcome of one `Iterator::next` call; `panic` marks the unchecked
slice-index accesses (`indirections[self.index]`, `expressions[expr_index]`)
going out of bounds. -/
inductive IterStep where
  | done
  | yield (e : SymbolicExpression) (it : ExpressionsIterator)
  | panic

/-- Source `ExpressionsIterator::next`: stop once `index` reaches the expression
count; otherwise read the indirection `sorting[index]` (no bounds check in the
source — out of range is a panic) and return `expressions[expr_index]`
(likewise unchecked). -/
def ExpressionsIterator.next (it : ExpressionsIterator) : IterStep :=
  if it.index ≥ it.expressions.length then
    .done
  else
    match it.sorting with
    | some indirections =>
      match indirections.get? it.index with
      | none => .panic
      | some expr_index =>
        match it.expressions.get? expr_index with
        | none => .panic
        | some result => .yield result { it with index := it.index + 1 }
    | none =>
      match it.expressions.get? it.index with
      | none => .panic
      | some result => .yield result { it with index := it.index + 1 }

/-- Drain the iterator (with fuel; one unit per `next` call), collecting the
yielded expressions; `none` reports a panic or fuel exhaustion. -/
def driveIterator : Nat → ExpressionsIterator → Option (List SymbolicExpression)
  | 0, _ => none
  | fuel + 1, it =>
    match it.next with
    | .done => some []
    | .panic => none
    | .yield e it' => (driveIterator fuel it').map (fun l => e :: l)

/-- Modelled from the spec: the error kinds of `CheckErrors` that the analyzed
code raises (error taxonomy of the spec, section 7). -/
inductive CheckErrors where
  | BadTokenName
  | NoSuchNFT (name : String)
  | NoSuchFT (name : String)
  | IncorrectArgumentCount (expected : Nat) (actual : Nat)
  | TraitReferenceUnknown (name : String)
  | BadTraitImplementation (traitName : String) (methodName : String)
  | TypeError (expected : TypeSignature) (actual : TypeSignature)
  | CircularReference (names : List String)
  | CostOverflow
  | NoSuchContract (name : String)
  | NameAlreadyUsed (name : String)
  deriving DecidableEq, Repr

/-- Phase 1 (`TraitChecker::run`), body of the loop over
`implemented_traits`: load the declaring contract, look the trait up in its
defined-trait catalog, then delegate to the record's structural-compliance
check (`check_trait_compliance`, an external collaborator passed in as
`compliance`). -/
def phase1CheckTrait
    (compliance : ContractAnalysis → TraitIdentifier →
      List (ClarityName × FunctionSignature) → Except CheckErrors Unit)
    (db : AnalysisDatabase) (contract_analysis : ContractAnalysis)
    (trait_identifier : TraitIdentifier) : Except CheckErrors Unit :=
  match db.load_contract trait_identifier.contract_identifier with
  | none => .error (.TraitReferenceUnknown trait_identifier.name)
  | some contract_defining_trait =>
    match contract_defining_trait.get_defined_trait trait_identifier.name with
    | none => .error (.TraitReferenceUnknown trait_identifier.name)
    | some trait_definition =>
      compliance contract_analysis trait_identifier trait_definition

/-- The `for trait_identifier in &contract_analysis.implemented_traits` loop
shared by both passes: the `?` operator stops at the first error. -/
def runTraits (step : TraitIdentifier → Except CheckErrors Unit) :
    List TraitIdentifier → Except CheckErrors Unit
  | [] => .ok ()
  | t :: rest =>
    match step t with
    | .error e => .error e
    | .ok () => runTraits step rest

/-- Source `TraitChecker::run` (Phase 1), parametric in the external
`check_trait_compliance` collaborator. -/
def traitCheckerRun
    (compliance : ContractAnalysis → TraitIdentifier →
      List (ClarityName × FunctionSignature) → Except CheckErrors Unit)
    (db : AnalysisDatabase) (contract_analysis : ContractAnalysis) :
    Except CheckErrors Unit :=
  runTraits (phase1CheckTrait compliance db contract_analysis)
    contract_analysis.implemented_traits

/-- Phase 2, the per-argument-pair comparison of
`PostTypeCheckingTraitChecker::run` (lines 49-64): the nominal early branch
when both sides are interface references (resolve each alias through its own
contract's referenced-trait table and compare the resolved identities), the
structural `admits_type` fallthrough otherwise. -/
def checkTraitArgPair (contract_defining_trait contract_analysis : ContractAnalysis)
    (trait_name func_name : String)
    (expected_arg : TypeSignature) (arg_signature : TypeSignature) :
    Except CheckErrors Unit :=
  match expected_arg, arg_signature with
  | .TraitReferenceType expected, .TraitReferenceType actual =>
    match contract_defining_trait.get_referenced_trait expected with
    | none => .error (.BadTraitImplementation trait_name func_name)
    | some expected_trait_id =>
      match contract_analysis.get_referenced_trait actual with
      | none => .error (.BadTraitImplementation trait_name func_name)
      | some actual_trait_id =>
        if actual_trait_id ≠ expected_trait_id then
          .error (.BadTraitImplementation trait_name func_name)
        else
          .ok ()
  | expected_arg, arg_signature =>
    if ¬ admitsType expected_arg arg_signature then
      .error (.BadTraitImplementation trait_name func_name)
    else
      .ok ()

/-- Phase 2, the loop over the zipped expected/realized argument pairs. -/
def checkTraitArgs (contract_defining_trait contract_analysis : ContractAnalysis)
    (trait_name func_name : String) :
    List (TypeSignature × FunctionArg) → Except CheckErrors Unit
  | [] => .ok ()
  | (expected_arg, arg) :: rest =>
    match checkTraitArgPair contract_defining_trait contract_analysis
        trait_name func_name expected_arg arg.signature with
    | .error e => .error e
    | .ok () =>
      checkTraitArgs contract_defining_trait contract_analysis
        trait_name func_name rest

/-- Phase 2, body of the `for (func_name, expected_sig) in trait_sig` loop
(`PostTypeCheckingTraitChecker::run` lines 42-74): the realized function must
be a public fixed-arity function of equal argument count, the argument pairs
must check, and the realized return type must be admitted. -/
def checkTraitMethod (contract_analysis contract_defining_trait : ContractAnalysis)
    (trait_name : String) (func_name : ClarityName)
    (expected_sig : FunctionSignature) : Except CheckErrors Unit :=
  match contract_analysis.get_public_function_type func_name with
  | some (.Fixed func) =>
    if func.args.length ≠ expected_sig.args.length then
      .error (.BadTraitImplementation trait_name func_name)
    else
      match checkTraitArgs contract_defining_trait contract_analysis
          trait_name func_name (expected_sig.args.zip func.args) with
      | .error e => .error e
      | .ok () =>
        if ¬ admitsType expected_sig.returns func.returns then
          .error (.BadTraitImplementation trait_name func_name)
        else
          .ok ()
  | _ => .error (.BadTraitImplementation trait_name func_name)

/-- Phase 2, the loop over a trait's required methods, in the iteration order
of the defined-trait catalog entry. -/
def checkTraitMethods (contract_analysis contract_defining_trait : ContractAnalysis)
    (trait_name : String) :
    List (ClarityName × FunctionSignature) → Except CheckErrors Unit
  | [] => .ok ()
  | (func_name, expected_sig) :: rest =>
    match checkTraitMethod contract_analysis contract_defining_trait
        trait_name func_name expected_sig with
    | .error e => .error e
    | .ok () =>
      checkTraitMethods contract_analysis contract_defining_trait
        trait_name rest

/-- Phase 2 (`PostTypeCheckingTraitChecker::run`), body of the loop over
`implemented_traits`. -/
def postCheckTrait (db : AnalysisDatabase) (contract_analysis : ContractAnalysis)
    (trait_identifier : TraitIdentifier) : Except CheckErrors Unit :=
  match db.load_contract trait_identifier.contract_identifier with
  | none => .error (.TraitReferenceUnknown trait_identifier.name)
  | some contract_defining_trait =>
    match contract_defining_trait.get_defined_trait trait_identifier.name with
    | none => .error (.TraitReferenceUnknown trait_identifier.name)
    | some trait_sig =>
      checkTraitMethods contract_analysis contract_defining_trait
        trait_identifier.name trait_sig

/-- Source `PostTypeCheckingTraitChecker::run` (Phase 2). -/
def postTypeCheckRun (db : AnalysisDatabase)
    (contract_analysis : ContractAnalysis) : Except CheckErrors Unit :=
  runTraits (postCheckTrait db contract_analysis)
    contract_analysis.implemented_traits

/-- Modelled from the spec: the slice of the type-checker's contract context
the six asset handlers read — the declared non-fungible-token catalog
(`get_nft_type`) and the declared fungible-token set (`ft_exists`). -/
structure ContractContext where
  non_fungible_tokens : List (ClarityName × TypeSignature)
  fungible_tokens : List ClarityName

/-- Source `contract_context.get_nft_type`. -/
def ContractContext.get_nft_type (ctx : ContractContext)
    (name : ClarityName) : Option TypeSignature :=
  btreeMapGet ctx.non_fungible_tokens name

/-- Source `contract_context.ft_exists`. -/
def ContractContext.ft_exists (ctx : ContractContext) (name : ClarityName) :
    Bool :=
  name ∈ ctx.fungible_tokens

/-- Modelled from the spec: the cost-metering collaborator is "a single call
accepting a cost-function identifier and an input-size parameter; returns
failure if the running budget is exceeded".  The tracker keeps the budget and
the list of charged amounts, so every metering call is observable. -/
structure CostTracker where
  budget : Nat
  charges : List Nat

/-- Modelled from the spec: the `runtime_cost!` macro — record the charge,
then fail with a resource-exhaustion error if the accumulated total exceeds
the budget (the budget is "checked after (not only before) each metered
operation"). -/
def runtime_cost (amount : Nat) (t : CostTracker) :
    Except CheckErrors Unit × CostTracker :=
  if (t.charges ++ [amount]).sum > t.budget then
    (.error .CostOverflow, { budget := t.budget, charges := t.charges ++ [amount] })
  else
    (.ok (), { budget := t.budget, charges := t.charges ++ [amount] })

/-- Modelled from the spec: `check_argument_count` of the analysis error
module — every handler "requires exactly the arity in the specification
table, failing on any other argument count". -/
def check_argument_count (count : Nat) (args : List SymbolicExpression) :
    Except CheckErrors Unit :=
  if args.length ≠ count then
    .error (.IncorrectArgumentCount count args.length)
  else
    .ok ()

/-- The general type-checker collaborator behind
`checker.type_check_expects(expr, context, expected)`: given the argument
expression and the expected type, it reports success or a typed failure. -/
def Tce := SymbolicExpression → TypeSignature → Except CheckErrors Unit

/-- Source `check_special_get_owner` (`assets.rs` lines 8-24). -/
def check_special_get_owner (tce : Tce) (ctx : ContractContext)
    (args : List SymbolicExpression) (cost : CostTracker) :
    Except CheckErrors TypeSignature × CostTracker :=
  match check_argument_count 2 args with
  | .error e => (.error e, cost)
  | .ok () =>
    match args with
    | [arg0, arg1] =>
      match arg0.match_atom with
      | none => (.error .BadTokenName, cost)
      | some asset_name =>
        match ctx.get_nft_type asset_name with
        | none => (.error (.NoSuchNFT asset_name), cost)
        | some expected_asset_type =>
          match runtime_cost expected_asset_type.type_size cost with
          | (.error e, cost) => (.error e, cost)
          | (.ok (), cost) =>
            match tce arg1 expected_asset_type with
            | .error e => (.error e, cost)
            | .ok () =>
              (.ok (.OptionalType .PrincipalType), cost)
    | _ => (.error (.IncorrectArgumentCount 2 args.length), cost)

/-- Source `check_special_get_balance` (`assets.rs` lines 26-42). -/
def check_special_get_balance (tce : Tce) (ctx : ContractContext)
    (args : List SymbolicExpression) (cost : CostTracker) :
    Except CheckErrors TypeSignature × CostTracker :=
  match check_argument_count 2 args with
  | .error e => (.error e, cost)
  | .ok () =>
    match args with
    | [arg0, arg1] =>
      match arg0.match_atom with
      | none => (.error .BadTokenName, cost)
      | some asset_name =>
        if ¬ ctx.ft_exists asset_name then
          (.error (.NoSuchFT asset_name), cost)
        else
          match runtime_cost 1 cost with
          | (.error e, cost) => (.error e, cost)
          | (.ok (), cost) =>
            match tce arg1 .PrincipalType with
            | .error e => (.error e, cost)
            | .ok () => (.ok .UIntType, cost)
    | _ => (.error (.IncorrectArgumentCount 2 args.length), cost)

/-- Source `check_special_mint_asset` (`assets.rs` lines 44-63). -/
def check_special_mint_asset (tce : Tce) (ctx : ContractContext)
    (args : List SymbolicExpression) (cost : CostTracker) :
    Except CheckErrors TypeSignature × CostTracker :=
  match check_argument_count 3 args with
  | .error e => (.error e, cost)
  | .ok () =>
    match args with
    | [arg0, arg1, arg2] =>
      match arg0.match_atom with
      | none => (.error .BadTokenName, cost)
      | some asset_name =>
        match ctx.get_nft_type asset_name with
        | none => (.error (.NoSuchNFT asset_name), cost)
        | some expected_asset_type =>
          match runtime_cost expected_asset_type.type_size cost with
          | (.error e, cost) => (.error e, cost)
          | (.ok (), cost) =>
            match tce arg1 expected_asset_type with
            | .error e => (.error e, cost)
            | .ok () =>
              match tce arg2 .PrincipalType with
              | .error e => (.error e, cost)
              | .ok () =>
                (.ok (.ResponseType .BoolType .UIntType), cost)
    | _ => (.error (.IncorrectArgumentCount 3 args.length), cost)

/-- Source `check_special_mint_token` (`assets.rs` lines 65-86).  Note the source
order: the fungible-token existence check runs only after both remaining
arguments have been type-checked. -/
def check_special_mint_token (tce : Tce) (ctx : ContractContext)
    (args : List SymbolicExpression) (cost : CostTracker) :
    Except CheckErrors TypeSignature × CostTracker :=
  match check_argument_count 3 args with
  | .error e => (.error e, cost)
  | .ok () =>
    match args with
    | [arg0, arg1, arg2] =>
      match arg0.match_atom with
      | none => (.error .BadTokenName, cost)
      | some asset_name =>
        match runtime_cost 1 cost with
        | (.error e, cost) => (.error e, cost)
        | (.ok (), cost) =>
          match tce arg1 .UIntType with
          | .error e => (.error e, cost)
          | .ok () =>
            match tce arg2 .PrincipalType with
            | .error e => (.error e, cost)
            | .ok () =>
              if ¬ ctx.ft_exists asset_name then
                (.error (.NoSuchFT asset_name), cost)
              else
                (.ok (.ResponseType .BoolType .UIntType), cost)
    | _ => (.error (.IncorrectArgumentCount 3 args.length), cost)

/-- Source `check_special_transfer_asset` (`assets.rs` lines 88-108). -/
def check_special_transfer_asset (tce : Tce) (ctx : ContractContext)
    (args : List SymbolicExpression) (cost : CostTracker) :
    Except CheckErrors TypeSignature × CostTracker :=
  match check_argument_count 4 args with
  | .error e => (.error e, cost)
  | .ok () =>
    match args with
    | [arg0, arg1, arg2, arg3] =>
      match arg0.match_atom with
      | none => (.error .BadTokenName, cost)
      | some token_name =>
        match ctx.get_nft_type token_name with
        | none => (.error (.NoSuchNFT token_name), cost)
        | some expected_asset_type =>
          match runtime_cost expected_asset_type.type_size cost with
          | (.error e, cost) => (.error e, cost)
          | (.ok (), cost) =>
            match tce arg1 expected_asset_type with
            | .error e => (.error e, cost)
            | .ok () =>
              match tce arg2 .PrincipalType with
              | .error e => (.error e, cost)
              | .ok () =>
                match tce arg3 .PrincipalType with
                | .error e => (.error e, cost)
                | .ok () =>
                  (.ok (.ResponseType .BoolType .UIntType), cost)
    | _ => (.error (.IncorrectArgumentCount 4 args.length), cost)

/-- Source `check_special_transfer_token` (`assets.rs` lines 110-132).  As with
`mint-token`, the fungible-token existence check runs only after the three
remaining arguments have been type-checked. -/
def check_special_transfer_token (tce : Tce) (ctx : ContractContext)
    (args : List SymbolicExpression) (cost : CostTracker) :
    Except CheckErrors TypeSignature × CostTracker :=
  match check_argument_count 4 args with
  | .error e => (.error e, cost)
  | .ok () =>
    match args with
    | [arg0, arg1, arg2, arg3] =>
      match arg0.match_atom with
      | none => (.error .BadTokenName, cost)
      | some token_name =>
        match runtime_cost 1 cost with
        | (.error e, cost) => (.error e, cost)
        | (.ok (), cost) =>
          match tce arg1 .UIntType with
          | .error e => (.error e, cost)
          | .ok () =>
            match tce arg2 .PrincipalType with
            | .error e => (.error e, cost)
            | .ok () =>
              match tce arg3 .PrincipalType with
              | .error e => (.error e, cost)
              | .ok () =>
                if ¬ ctx.ft_exists token_name then
                  (.error (.NoSuchFT token_name), cost)
                else
                  (.ok (.ResponseType .BoolType .UIntType), cost)
    | _ => (.error (.IncorrectArgumentCount 4 args.length), cost)

instance : Inhabited TraitIdentifier :=
  ⟨{ name := "", contract_identifier := { issuer := "", name := "" } }⟩

/-- Modelled from the spec: resolution of a local interface alias "through an
explicit namespace table per contract (defined + referenced)"; an alias that
resolves through neither table is an unresolved reference. -/
def resolveTraitAlias (ca : ContractAnalysis) (aliasName : ClarityName) :
    Except CheckErrors TraitIdentifier :=
  match ca.get_referenced_trait aliasName with
  | some id => .ok id
  | none =>
    match ca.get_defined_trait aliasName with
    | some _ => .ok { name := aliasName, contract_identifier := ca.contract_identifier }
    | none => .error (.TraitReferenceUnknown aliasName)

/-- The interface aliases appearing as method parameter types of one defined
interface. -/
def traitRefArgs (methods : List (ClarityName × FunctionSignature)) :
    List ClarityName :=
  (methods.flatMap (fun m => m.2.args)).filterMap
    (fun t =>
      match t with
      | .TraitReferenceType n => some n
      | _ => none)

/-- Resolve every alias of a list, stopping at the first failure. -/
def resolveTraitRefs (ca : ContractAnalysis) :
    List ClarityName → Except CheckErrors (List TraitIdentifier)
  | [] => .ok []
  | n :: rest =>
    match resolveTraitAlias ca n with
    | .error e => .error e
    | .ok id =>
      match resolveTraitRefs ca rest with
      | .error e => .error e
      | .ok ids => .ok (id :: ids)

/-- Find a contract of the analyzed set by its qualified identifier. -/
def lookupContract (contracts : List ContractAnalysis)
    (cid : QualifiedContractIdentifier) : Option ContractAnalysis :=
  contracts.find? (fun ca => decide (ca.contract_identifier = cid))

/-- Modelled from the spec: the out-edges of one node of the "interface
reference graph" — the resolved identities of the interface references in the
method parameter types of the named interface. -/
def traitEdges (contracts : List ContractAnalysis) (tid : TraitIdentifier) :
    Except CheckErrors (List TraitIdentifier) :=
  match lookupContract contracts tid.contract_identifier with
  | none => .error (.TraitReferenceUnknown tid.name)
  | some ca =>
    match ca.get_defined_trait tid.name with
    | none => .error (.TraitReferenceUnknown tid.name)
    | some methods => resolveTraitRefs ca (traitRefArgs methods)

/-- All interface identities defined across the analyzed set of contracts:
the node set of the interface reference graph. -/
def allTraitIds (contracts : List ContractAnalysis) : List TraitIdentifier :=
  contracts.flatMap
    (fun ca => ca.defined_traits.map
      (fun p => { name := p.1, contract_identifier := ca.contract_identifier }))

mutual

/-- Modelled from the spec: cycle detection "via a visited-set walk keyed by
resolved identity, rejecting before any structural recursion would otherwise
loop".  `path` is the set of identities on the current walk; meeting one of
them again is a circular reference.  Fuel bounds the recursion depth; it can
only run out on a walk longer than the whole node set, which a fresh-node walk
never is. -/
def visitTrait (contracts : List ContractAnalysis) :
    Nat → List TraitIdentifier → TraitIdentifier → Except CheckErrors Unit
  | 0, _, tid => .error (.CircularReference [tid.name])
  | fuel + 1, path, tid =>
    if tid ∈ path then .error (.CircularReference [tid.name])
    else
      match traitEdges contracts tid with
      | .error e => .error e
      | .ok succs => visitSuccs contracts fuel (tid :: path) succs
termination_by fuel _ _ => (fuel, 0)

/-- Walk each successor in turn, stopping at the first failure. -/
def visitSuccs (contracts : List ContractAnalysis) :
    Nat → List TraitIdentifier → List TraitIdentifier → Except CheckErrors Unit
  | _, _, [] => .ok ()
  | fuel, path, t :: rest =>
    match visitTrait contracts fuel path t with
    | .error e => .error e
    | .ok () => visitSuccs contracts fuel path rest
termination_by fuel _ l => (fuel, l.length + 1)

end

/-- Modelled from the spec: the whole-graph acyclicity check — walk from
every defined interface identity. -/
def checkTraitGraph (contracts : List ContractAnalysis) :
    Except CheckErrors Unit :=
  visitSuccs contracts ((allTraitIds contracts).length + 1) []
    (allTraitIds contracts)

/-- One edge of a candidate cycle `c` exists in the interface reference
graph: the edges of `c[i]` resolve and contain `c[(i+1) mod |c|]`. -/
def cycleStepOk (contracts : List ContractAnalysis)
    (c : List TraitIdentifier) (i : Nat) : Bool :=
  match traitEdges contracts (c.getD i default) with
  | .ok succs => decide ((c.getD ((i + 1) % c.length) default) ∈ succs)
  | .error _ => false

/-- Predicate: `c` is a cycle of the interface reference graph of `contracts`. -/
def IsTraitCycle (contracts : List ContractAnalysis)
    (c : List TraitIdentifier) : Prop :=
  c ≠ [] ∧ ∀ i < c.length, cycleStepOk contracts c i = true

/-- The failure kinds of the acyclicity check: circular reference or
unresolved reference. -/
def isCycleFailure (e : CheckErrors) : Prop :=
  (∃ ns, e = .CircularReference ns) ∨ (∃ n, e = .TraitReferenceUnknown n)

/-- Concrete fixtures used by witnesses and counterexamples. -/
def cidA : QualifiedContractIdentifier := { issuer := "SP1", name := "contract-a" }

def cidB : QualifiedContractIdentifier := { issuer := "SP1", name := "contract-b" }

def tidA : TraitIdentifier := { name := "trait-1", contract_identifier := cidA }

def tidB : TraitIdentifier := { name := "trait-2", contract_identifier := cidB }

/-- C5: for every interface identity, Phase 1 fails with
`TraitReferenceUnknown(interface name)` when the declaring contract cannot be
loaded from the analysis database, or when the named interface is absent from
that contract's defined-interface catalog; only when both lookups succeed
does it proceed to the record's structural-compliance check. -/
theorem phase1_resolution_C5
    (compliance : ContractAnalysis → TraitIdentifier →
      List (ClarityName × FunctionSignature) → Except CheckErrors Unit)
    (db : AnalysisDatabase) (ca : ContractAnalysis) (tid : TraitIdentifier) :
    (db.load_contract tid.contract_identifier = none →
      phase1CheckTrait compliance db ca tid =
        .error (.TraitReferenceUnknown tid.name)) ∧
    (∀ defC, db.load_contract tid.contract_identifier = some defC →
      defC.get_defined_trait tid.name = none →
      phase1CheckTrait compliance db ca tid =
        .error (.TraitReferenceUnknown tid.name)) ∧
    (∀ defC sig, db.load_contract tid.contract_identifier = some defC →
      defC.get_defined_trait tid.name = some sig →
      phase1CheckTrait compliance db ca tid = compliance ca tid sig) := by
  refine ⟨?_, ?_, ?_⟩
  · intro h
    simp [phase1CheckTrait, h]
  · intro defC h1 h2
    simp [phase1CheckTrait, h1, h2]
  · intro defC sig h1 h2
    simp [phase1CheckTrait, h1, h2]

theorem phase1_resolution_C5_witness :
    phase1CheckTrait (fun _ _ _ => .ok ()) (fun _ => none)
      (ContractAnalysis.new cidA []) tidB =
      .error (.TraitReferenceUnknown "trait-2") :=
  (phase1_resolution_C5 (fun _ _ _ => .ok ()) (fun _ => none)
    (ContractAnalysis.new cidA []) tidB).1 rfl

theorem checkTraitArgPair_ok_or_bad
    (d i : ContractAnalysis) (tn fn : String) (e a : TypeSignature) :
    checkTraitArgPair d i tn fn e a = .ok () ∨
    checkTraitArgPair d i tn fn e a =
      .error (.BadTraitImplementation tn fn) := by
  unfold checkTraitArgPair
  repeat' split
  all_goals simp_all

theorem checkTraitArgs_ok_or_bad
    (d i : ContractAnalysis) (tn fn : String)
    (l : List (TypeSignature × FunctionArg)) :
    checkTraitArgs d i tn fn l = .ok () ∨
    checkTraitArgs d i tn fn l =
      .error (.BadTraitImplementation tn fn) := by
  induction l with
  | nil => simp [checkTraitArgs]
  | cons p rest ih =>
    obtain ⟨e, a⟩ := p
    simp only [checkTraitArgs]
    rcases checkTraitArgPair_ok_or_bad d i tn fn e a.signature with h | h
    · rw [h]
      exact ih
    · rw [h]
      simp

/-- C1: the Phase-2 per-method check accepts only if the implementing
contract's public-function catalog holds a fixed-arity function of the
required name whose argument count equals the required parameter count and
whose return type is admitted by the required return type; a missing or
non-fixed shape, an arity mismatch, or a return-admission failure yields
`BadTraitImplementation(interface name, method name)`. -/
theorem postcheck_method_shape_C1
    (impl defining : ContractAnalysis) (tn fn : String)
    (sig : FunctionSignature) :
    (checkTraitMethod impl defining tn fn sig = .ok () →
      ∃ f, impl.get_public_function_type fn = some (.Fixed f) ∧
        f.args.length = sig.args.length ∧
        admitsType sig.returns f.returns = true) ∧
    (((∀ f, impl.get_public_function_type fn ≠ some (.Fixed f)) ∨
      (∃ f, impl.get_public_function_type fn = some (.Fixed f) ∧
        (f.args.length ≠ sig.args.length ∨
          admitsType sig.returns f.returns = false))) →
      checkTraitMethod impl defining tn fn sig =
        .error (.BadTraitImplementation tn fn)) := by
  constructor
  · intro h
    unfold checkTraitMethod at h
    split at h
    · rename_i f hf
      refine ⟨f, hf, ?_, ?_⟩
      · split at h
        · simp at h
        · rename_i hlen
          simp at hlen
          split at h
          · simp at h
          · exact hlen
      · split at h
        · simp at h
        · split at h
          · simp at h
          · split at h
            · simp at h
            · rename_i hadm
              simp at hadm
              exact hadm
    · simp at h
  · intro h
    rcases h with h | ⟨f, hf, hbad⟩
    · unfold checkTraitMethod
      split
      · rename_i f hf
        exact absurd hf (h f)
      · rfl
    · simp only [checkTraitMethod, hf]
      rcases hbad with hlen | hret
      · simp [hlen]
      · split
        · rfl
        · rcases checkTraitArgs_ok_or_bad defining impl tn fn
            (sig.args.zip f.args) with hargs | hargs
          · rw [hargs]
            simp [hret]
          · rw [hargs]

theorem postcheck_method_shape_C1_witness :
    ∃ f, (((ContractAnalysis.new cidA []).add_public_function "get-1"
        (.Fixed { args := [{ signature := .UIntType, name := "x" }],
                  returns := .ResponseType .UIntType .UIntType })).get_public_function_type
        "get-1") = some (.Fixed f) ∧
      f.args.length = 1 ∧
      admitsType (TypeSignature.ResponseType .UIntType .UIntType) f.returns = true :=
  (postcheck_method_shape_C1
    ((ContractAnalysis.new cidA []).add_public_function "get-1"
      (.Fixed { args := [{ signature := .UIntType, name := "x" }],
                returns := .ResponseType .UIntType .UIntType }))
    (ContractAnalysis.new cidA []) "trait-1" "get-1"
    { args := [.UIntType], returns := .ResponseType .UIntType .UIntType }).1
    rfl

deriving instance DecidableEq for Except

theorem admitsType_traitref_false (e : ClarityName) (t : TypeSignature)
    (h : ∀ a, t ≠ .TraitReferenceType a) :
    admitsType (.TraitReferenceType e) t = false := by
  cases t <;> simp [admitsType] at h ⊢

/-- C2: in Phase 2, for a required method parameter declared as an interface
reference, the realized parameter must also be an interface reference and
both sides must resolve — each through its own contract's referenced-trait
table — to the same fully qualified interface identity; a non-reference
realized type, an unresolved alias on either side, or resolution to two
different identities (identity is nominal, structural equality of the method
sets plays no role) yields `BadTraitImplementation`. -/
theorem postcheck_nominal_identity_C2
    (defining impl : ContractAnalysis) (tn fn : String)
    (e : ClarityName) (actual : TypeSignature) :
    (checkTraitArgPair defining impl tn fn (.TraitReferenceType e) actual =
        .ok () ↔
      ∃ a id, actual = .TraitReferenceType a ∧
        defining.get_referenced_trait e = some id ∧
        impl.get_referenced_trait a = some id) ∧
    (checkTraitArgPair defining impl tn fn (.TraitReferenceType e) actual ≠
        .ok () →
      checkTraitArgPair defining impl tn fn (.TraitReferenceType e) actual =
        .error (.BadTraitImplementation tn fn)) := by
  constructor
  · constructor
    · intro h
      cases actual
      case TraitReferenceType a =>
        simp only [checkTraitArgPair] at h
        cases h1 : defining.get_referenced_trait e with
        | none => rw [h1] at h; simp at h
        | some idE =>
          rw [h1] at h
          cases h2 : impl.get_referenced_trait a with
          | none => rw [h2] at h; simp at h
          | some idA =>
            rw [h2] at h
            by_cases hne : idA ≠ idE
            · simp [hne] at h
            · push_neg at hne
              exact ⟨a, idE, rfl, rfl, by rw [h2, hne]⟩
      all_goals simp [checkTraitArgPair, admitsType] at h
    · rintro ⟨a, id, heq, h1, h2⟩
      subst heq
      simp [checkTraitArgPair, h1, h2]
  · intro h
    rcases checkTraitArgPair_ok_or_bad defining impl tn fn
      (.TraitReferenceType e) actual with h1 | h1
    · exact absurd h1 h
    · exact h1

theorem postcheck_nominal_identity_C2_witness :
    checkTraitArgPair (ContractAnalysis.new cidA [])
      (ContractAnalysis.new cidB []) "trait-1" "get-1"
      (.TraitReferenceType "t") .PrincipalType =
      .error (.BadTraitImplementation "trait-1" "get-1") :=
  (postcheck_nominal_identity_C2 (ContractAnalysis.new cidA [])
    (ContractAnalysis.new cidB []) "trait-1" "get-1" "t" .PrincipalType).2
    (by decide)

/-- Oracle standing for a general type-checker run in which every checked
argument is well-typed. -/
def tceOk : Tce := fun _ _ => .ok ()

/-- Oracle standing for a general type-checker run in which the checked
argument fails with a standard type error. -/
def tceFail : Tce := fun _ _ => .error (.TypeError .UIntType .BoolType)

def ctx0 : ContractContext := { non_fungible_tokens := [], fungible_tokens := [] }

/-- Context declaring one NFT (identifier type `uint`) and one FT. -/
def ctx1 : ContractContext :=
  { non_fungible_tokens := [("stackaroo", .UIntType)]
    fungible_tokens := ["stackoken"] }

def cost0 : CostTracker := { budget := 1000, charges := [] }

/-- C7: each of the six asset/token handlers requires exactly the arity of
the specification table (get-owner 2, get-balance 2, mint-asset 3,
mint-token 3, transfer-asset 4, transfer-token 4), failing on any other
argument count, and on success returns exactly the table's result type:
optional principal, unsigned integer, and response(bool, unsigned integer)
for the four mint/transfer operations. -/
theorem asset_arity_result_C7 :
    (∀ tce ctx args cost t c,
      check_special_get_owner tce ctx args cost = (.ok t, c) →
        args.length = 2 ∧ t = .OptionalType .PrincipalType) ∧
    (∀ tce ctx (args : List SymbolicExpression) cost, args.length ≠ 2 →
      (check_special_get_owner tce ctx args cost).1 =
        .error (.IncorrectArgumentCount 2 args.length)) ∧
    (∀ tce ctx args cost t c,
      check_special_get_balance tce ctx args cost = (.ok t, c) →
        args.length = 2 ∧ t = .UIntType) ∧
    (∀ tce ctx (args : List SymbolicExpression) cost, args.length ≠ 2 →
      (check_special_get_balance tce ctx args cost).1 =
        .error (.IncorrectArgumentCount 2 args.length)) ∧
    (∀ tce ctx args cost t c,
      check_special_mint_asset tce ctx args cost = (.ok t, c) →
        args.length = 3 ∧ t = .ResponseType .BoolType .UIntType) ∧
    (∀ tce ctx (args : List SymbolicExpression) cost, args.length ≠ 3 →
      (check_special_mint_asset tce ctx args cost).1 =
        .error (.IncorrectArgumentCount 3 args.length)) ∧
    (∀ tce ctx args cost t c,
      check_special_mint_token tce ctx args cost = (.ok t, c) →
        args.length = 3 ∧ t = .ResponseType .BoolType .UIntType) ∧
    (∀ tce ctx (args : List SymbolicExpression) cost, args.length ≠ 3 →
      (check_special_mint_token tce ctx args cost).1 =
        .error (.IncorrectArgumentCount 3 args.length)) ∧
    (∀ tce ctx args cost t c,
      check_special_transfer_asset tce ctx args cost = (.ok t, c) →
        args.length = 4 ∧ t = .ResponseType .BoolType .UIntType) ∧
    (∀ tce ctx (args : List SymbolicExpression) cost, args.length ≠ 4 →
      (check_special_transfer_asset tce ctx args cost).1 =
        .error (.IncorrectArgumentCount 4 args.length)) ∧
    (∀ tce ctx args cost t c,
      check_special_transfer_token tce ctx args cost = (.ok t, c) →
        args.length = 4 ∧ t = .ResponseType .BoolType .UIntType) ∧
    (∀ tce ctx (args : List SymbolicExpression) cost, args.length ≠ 4 →
      (check_special_transfer_token tce ctx args cost).1 =
        .error (.IncorrectArgumentCount 4 args.length)) := by
  refine ⟨?_, ?_, ?_, ?_, ?_, ?_, ?_, ?_, ?_, ?_, ?_, ?_⟩
  · intro tce ctx args cost t c h
    unfold check_special_get_owner check_argument_count at h
    repeat' split at h
    all_goals simp_all
  · intro tce ctx args cost hlen
    simp [check_special_get_owner, check_argument_count, hlen]
  · intro tce ctx args cost t c h
    unfold check_special_get_balance check_argument_count at h
    repeat' split at h
    all_goals simp_all
  · intro tce ctx args cost hlen
    simp [check_special_get_balance, check_argument_count, hlen]
  · intro tce ctx args cost t c h
    unfold check_special_mint_asset check_argument_count at h
    repeat' split at h
    all_goals simp_all
  · intro tce ctx args cost hlen
    simp [check_special_mint_asset, check_argument_count, hlen]
  · intro tce ctx args cost t c h
    unfold check_special_mint_token check_argument_count at h
    repeat' split at h
    all_goals simp_all
  · intro tce ctx args cost hlen
    simp [check_special_mint_token, check_argument_count, hlen]
  · intro tce ctx args cost t c h
    unfold check_special_transfer_asset check_argument_count at h
    repeat' split at h
    all_goals simp_all
  · intro tce ctx args cost hlen
    simp [check_special_transfer_asset, check_argument_count, hlen]
  · intro tce ctx args cost t c h
    unfold check_special_transfer_token check_argument_count at h
    repeat' split at h
    all_goals simp_all
  · intro tce ctx args cost hlen
    simp [check_special_transfer_token, check_argument_count, hlen]

theorem asset_arity_result_C7_witness :
    (check_special_get_owner tceOk ctx1 [] cost0).1 =
      .error (.IncorrectArgumentCount 2 0) :=
  asset_arity_result_C7.2.1 tceOk ctx1 [] cost0 (by decide)

/-- C3 (amended): get-owner, get-balance, mint-asset and transfer-asset
validate the literal asset/token name against the declared schema before
type-checking the remaining arguments, so an unknown name yields
`NoSuchNFT`/`NoSuchFT` regardless of the remaining arguments; mint-token and
transfer-token validate only the atom shape up front and consult the
fungible-token set after type-checking the remaining arguments, so for them
an unknown name yields `NoSuchFT` only when the remaining arguments
type-check (and the metering call passes). -/
theorem asset_name_first_C3 :
    (∀ tce ctx (a0 a1 : SymbolicExpression) cost name,
      a0.match_atom = some name → ctx.get_nft_type name = none →
      (check_special_get_owner tce ctx [a0, a1] cost).1 =
        .error (.NoSuchNFT name)) ∧
    (∀ tce ctx (a0 a1 : SymbolicExpression) cost name,
      a0.match_atom = some name → ctx.ft_exists name = false →
      (check_special_get_balance tce ctx [a0, a1] cost).1 =
        .error (.NoSuchFT name)) ∧
    (∀ tce ctx (a0 a1 a2 : SymbolicExpression) cost name,
      a0.match_atom = some name → ctx.get_nft_type name = none →
      (check_special_mint_asset tce ctx [a0, a1, a2] cost).1 =
        .error (.NoSuchNFT name)) ∧
    (∀ tce ctx (a0 a1 a2 a3 : SymbolicExpression) cost name,
      a0.match_atom = some name → ctx.get_nft_type name = none →
      (check_special_transfer_asset tce ctx [a0, a1, a2, a3] cost).1 =
        .error (.NoSuchNFT name)) ∧
    (∀ (tce : Tce) ctx (a0 a1 a2 : SymbolicExpression) cost name c1,
      a0.match_atom = some name → ctx.ft_exists name = false →
      runtime_cost 1 cost = (.ok (), c1) →
      tce a1 .UIntType = .ok () → tce a2 .PrincipalType = .ok () →
      (check_special_mint_token tce ctx [a0, a1, a2] cost).1 =
        .error (.NoSuchFT name)) ∧
    (∀ (tce : Tce) ctx (a0 a1 a2 a3 : SymbolicExpression) cost name c1,
      a0.match_atom = some name → ctx.ft_exists name = false →
      runtime_cost 1 cost = (.ok (), c1) →
      tce a1 .UIntType = .ok () → tce a2 .PrincipalType = .ok () →
      tce a3 .PrincipalType = .ok () →
      (check_special_transfer_token tce ctx [a0, a1, a2, a3] cost).1 =
        .error (.NoSuchFT name)) := by
  refine ⟨?_, ?_, ?_, ?_, ?_, ?_⟩
  · intro tce ctx a0 a1 cost name h1 h2
    simp [check_special_get_owner, check_argument_count, h1, h2]
  · intro tce ctx a0 a1 cost name h1 h2
    simp [check_special_get_balance, check_argument_count, h1, h2]
  · intro tce ctx a0 a1 a2 cost name h1 h2
    simp [check_special_mint_asset, check_argument_count, h1, h2]
  · intro tce ctx a0 a1 a2 a3 cost name h1 h2
    simp [check_special_transfer_asset, check_argument_count, h1, h2]
  · intro tce ctx a0 a1 a2 cost name c1 h1 h2 hc ht1 ht2
    simp [check_special_mint_token, check_argument_count, h1, h2, hc, ht1, ht2]
  · intro tce ctx a0 a1 a2 a3 cost name c1 h1 h2 hc ht1 ht2 ht3
    simp [check_special_transfer_token, check_argument_count, h1, h2, hc,
      ht1, ht2, ht3]

theorem asset_name_first_C3_counterexample :
    (check_special_transfer_token tceFail ctx0
        [.Atom "stackaroo", .Atom "amt", .Atom "p1", .Atom "p2"] cost0).1 =
      .error (.TypeError .UIntType .BoolType) ∧
    (check_special_transfer_token tceFail ctx0
        [.Atom "stackaroo", .Atom "amt", .Atom "p1", .Atom "p2"] cost0).1 ≠
      .error (.NoSuchFT "stackaroo") := by
  constructor
  · rfl
  · decide

theorem asset_name_first_C3_witness :
    (check_special_get_owner tceFail ctx0 [.Atom "nope", .Atom "x"] cost0).1 =
      .error (.NoSuchNFT "nope") :=
  asset_name_first_C3.1 tceFail ctx0 (.Atom "nope") (.Atom "x") cost0 "nope"
    rfl rfl

/-- C6 (amended): at the required arity, a first argument that is not a
literal atom always fails with `BadTokenName` in every one of the six
handlers; a first argument that is an atom naming no declared asset fails
with `NoSuchNFT`/`NoSuchFT` carrying the offending name — immediately for
get-owner, get-balance, mint-asset and transfer-asset, and after the
remaining arguments type-check for mint-token and transfer-token.  The two
failure kinds are produced by disjoint conditions. -/
theorem asset_badname_vs_missing_C6 :
    (∀ tce ctx (a0 a1 : SymbolicExpression) cost, a0.match_atom = none →
      (check_special_get_owner tce ctx [a0, a1] cost).1 =
        .error .BadTokenName) ∧
    (∀ tce ctx (a0 a1 : SymbolicExpression) cost, a0.match_atom = none →
      (check_special_get_balance tce ctx [a0, a1] cost).1 =
        .error .BadTokenName) ∧
    (∀ tce ctx (a0 a1 a2 : SymbolicExpression) cost, a0.match_atom = none →
      (check_special_mint_asset tce ctx [a0, a1, a2] cost).1 =
        .error .BadTokenName) ∧
    (∀ tce ctx (a0 a1 a2 : SymbolicExpression) cost, a0.match_atom = none →
      (check_special_mint_token tce ctx [a0, a1, a2] cost).1 =
        .error .BadTokenName) ∧
    (∀ tce ctx (a0 a1 a2 a3 : SymbolicExpression) cost, a0.match_atom = none →
      (check_special_transfer_asset tce ctx [a0, a1, a2, a3] cost).1 =
        .error .BadTokenName) ∧
    (∀ tce ctx (a0 a1 a2 a3 : SymbolicExpression) cost, a0.match_atom = none →
      (check_special_transfer_token tce ctx [a0, a1, a2, a3] cost).1 =
        .error .BadTokenName) ∧
    (∀ tce ctx (a0 a1 : SymbolicExpression) cost name,
      a0.match_atom = some name → ctx.get_nft_type name = none →
      (check_special_get_owner tce ctx [a0, a1] cost).1 =
        .error (.NoSuchNFT name)) ∧
    (∀ tce ctx (a0 a1 : SymbolicExpression) cost name,
      a0.match_atom = some name → ctx.ft_exists name = false →
      (check_special_get_balance tce ctx [a0, a1] cost).1 =
        .error (.NoSuchFT name)) ∧
    (∀ tce ctx (a0 a1 a2 : SymbolicExpression) cost name,
      a0.match_atom = some name → ctx.get_nft_type name = none →
      (check_special_mint_asset tce ctx [a0, a1, a2] cost).1 =
        .error (.NoSuchNFT name)) ∧
    (∀ tce ctx (a0 a1 a2 a3 : SymbolicExpression) cost name,
      a0.match_atom = some name → ctx.get_nft_type name = none →
      (check_special_transfer_asset tce ctx [a0, a1, a2, a3] cost).1 =
        .error (.NoSuchNFT name)) ∧
    (∀ (tce : Tce) ctx (a0 a1 a2 : SymbolicExpression) cost name c1,
      a0.match_atom = some name → ctx.ft_exists name = false →
      runtime_cost 1 cost = (.ok (), c1) →
      tce a1 .UIntType = .ok () → tce a2 .PrincipalType = .ok () →
      (check_special_mint_token tce ctx [a0, a1, a2] cost).1 =
        .error (.NoSuchFT name)) ∧
    (∀ (tce : Tce) ctx (a0 a1 a2 a3 : SymbolicExpression) cost name c1,
      a0.match_atom = some name → ctx.ft_exists name = false →
      runtime_cost 1 cost = (.ok (), c1) →
      tce a1 .UIntType = .ok () → tce a2 .PrincipalType = .ok () →
      tce a3 .PrincipalType = .ok () →
      (check_special_transfer_token tce ctx [a0, a1, a2, a3] cost).1 =
        .error (.NoSuchFT name)) := by
  refine ⟨?_, ?_, ?_, ?_, ?_, ?_, ?_, ?_, ?_, ?_, ?_, ?_⟩
  · intro tce ctx a0 a1 cost h
    simp [check_special_get_owner, check_argument_count, h]
  · intro tce ctx a0 a1 cost h
    simp [check_special_get_balance, check_argument_count, h]
  · intro tce ctx a0 a1 a2 cost h
    simp [check_special_mint_asset, check_argument_count, h]
  · intro tce ctx a0 a1 a2 cost h
    simp [check_special_mint_token, check_argument_count, h]
  · intro tce ctx a0 a1 a2 a3 cost h
    simp [check_special_transfer_asset, check_argument_count, h]
  · intro tce ctx a0 a1 a2 a3 cost h
    simp [check_special_transfer_token, check_argument_count, h]
  · intro tce ctx a0 a1 cost name h1 h2
    simp [check_special_get_owner, check_argument_count, h1, h2]
  · intro tce ctx a0 a1 cost name h1 h2
    simp [check_special_get_balance, check_argument_count, h1, h2]
  · intro tce ctx a0 a1 a2 cost name h1 h2
    simp [check_special_mint_asset, check_argument_count, h1, h2]
  · intro tce ctx a0 a1 a2 a3 cost name h1 h2
    simp [check_special_transfer_asset, check_argument_count, h1, h2]
  · intro tce ctx a0 a1 a2 cost name c1 h1 h2 hc ht1 ht2
    simp [check_special_mint_token, check_argument_count, h1, h2, hc, ht1, ht2]
  · intro tce ctx a0 a1 a2 a3 cost name c1 h1 h2 hc ht1 ht2 ht3
    simp [check_special_transfer_token, check_argument_count, h1, h2, hc,
      ht1, ht2, ht3]

theorem asset_badname_vs_missing_C6_counterexample :
    (check_special_mint_token tceFail ctx0
        [.Atom "stackoken", .Atom "amt", .Atom "p"] cost0).1 =
      .error (.TypeError .UIntType .BoolType) ∧
    (check_special_mint_token tceFail ctx0
        [.Atom "stackoken", .Atom "amt", .Atom "p"] cost0).1 ≠
      .error (.NoSuchFT "stackoken") := by
  constructor
  · rfl
  · decide

theorem asset_badname_vs_missing_C6_witness :
    (check_special_transfer_asset tceOk ctx1
        [.List [], .Atom "x", .Atom "p1", .Atom "p2"] cost0).1 =
      .error .BadTokenName :=
  asset_badname_vs_missing_C6.2.2.2.2.1 tceOk ctx1 (.List []) (.Atom "x")
    (.Atom "p1") (.Atom "p2") cost0 rfl

theorem runtime_cost_eq (a : Nat) (t : CostTracker)
    (r : Except CheckErrors Unit) (c : CostTracker)
    (h : runtime_cost a t = (r, c)) : c.charges = t.charges ++ [a] := by
  unfold runtime_cost at h
  split at h <;> (cases h; rfl)

theorem get_owner_ok_meter (tce : Tce) (ctx : ContractContext)
    (a0 : SymbolicExpression) (rest : List SymbolicExpression)
    (cost : CostTracker) (t : TypeSignature) (c' : CostTracker)
    (h : check_special_get_owner tce ctx (a0 :: rest) cost = (.ok t, c')) :
    ∃ name ty, a0.match_atom = some name ∧ ctx.get_nft_type name = some ty ∧
      c'.charges = cost.charges ++ [ty.type_size] := by
  unfold check_special_get_owner check_argument_count at h
  repeat' split at h
  all_goals
    first
    | (simp_all; done)
    | (have hch := runtime_cost_eq _ _ _ _ (by assumption)
       simp_all)

theorem mint_asset_ok_meter (tce : Tce) (ctx : ContractContext)
    (a0 : SymbolicExpression) (rest : List SymbolicExpression)
    (cost : CostTracker) (t : TypeSignature) (c' : CostTracker)
    (h : check_special_mint_asset tce ctx (a0 :: rest) cost = (.ok t, c')) :
    ∃ name ty, a0.match_atom = some name ∧ ctx.get_nft_type name = some ty ∧
      c'.charges = cost.charges ++ [ty.type_size] := by
  unfold check_special_mint_asset check_argument_count at h
  repeat' split at h
  all_goals
    first
    | (simp_all; done)
    | (have hch := runtime_cost_eq _ _ _ _ (by assumption)
       simp_all)

theorem transfer_asset_ok_meter (tce : Tce) (ctx : ContractContext)
    (a0 : SymbolicExpression) (rest : List SymbolicExpression)
    (cost : CostTracker) (t : TypeSignature) (c' : CostTracker)
    (h : check_special_transfer_asset tce ctx (a0 :: rest) cost = (.ok t, c')) :
    ∃ name ty, a0.match_atom = some name ∧ ctx.get_nft_type name = some ty ∧
      c'.charges = cost.charges ++ [ty.type_size] := by
  unfold check_special_transfer_asset check_argument_count at h
  repeat' split at h
  all_goals
    first
    | (simp_all; done)
    | (have hch := runtime_cost_eq _ _ _ _ (by assumption)
       simp_all)

theorem get_balance_ok_meter (tce : Tce) (ctx : ContractContext)
    (args : List SymbolicExpression)
    (cost : CostTracker) (t : TypeSignature) (c' : CostTracker)
    (h : check_special_get_balance tce ctx args cost = (.ok t, c')) :
    c'.charges = cost.charges ++ [1] := by
  unfold check_special_get_balance check_argument_count at h
  repeat' split at h
  all_goals
    first
    | (simp_all; done)
    | (have hch := runtime_cost_eq _ _ _ _ (by assumption)
       simp_all)

theorem mint_token_ok_meter (tce : Tce) (ctx : ContractContext)
    (args : List SymbolicExpression)
    (cost : CostTracker) (t : TypeSignature) (c' : CostTracker)
    (h : check_special_mint_token tce ctx args cost = (.ok t, c')) :
    c'.charges = cost.charges ++ [1] := by
  unfold check_special_mint_token check_argument_count at h
  repeat' split at h
  all_goals
    first
    | (simp_all; done)
    | (have hch := runtime_cost_eq _ _ _ _ (by assumption)
       simp_all)

theorem transfer_token_ok_meter (tce : Tce) (ctx : ContractContext)
    (args : List SymbolicExpression)
    (cost : CostTracker) (t : TypeSignature) (c' : CostTracker)
    (h : check_special_transfer_token tce ctx args cost = (.ok t, c')) :
    c'.charges = cost.charges ++ [1] := by
  unfold check_special_transfer_token check_argument_count at h
  repeat' split at h
  all_goals
    first
    | (simp_all; done)
    | (have hch := runtime_cost_eq _ _ _ _ (by assumption)
       simp_all)

theorem get_owner_at_most_one (tce : Tce) (ctx : ContractContext)
    (args : List SymbolicExpression) (cost : CostTracker) :
    (check_special_get_owner tce ctx args cost).2.charges = cost.charges ∨
    ∃ a, (check_special_get_owner tce ctx args cost).2.charges =
      cost.charges ++ [a] := by
  unfold check_special_get_owner check_argument_count
  repeat' split
  all_goals
    first
    | (simp_all; done)
    | exact Or.inr ⟨_, runtime_cost_eq _ _ _ _ (by assumption)⟩

theorem get_balance_at_most_one (tce : Tce) (ctx : ContractContext)
    (args : List SymbolicExpression) (cost : CostTracker) :
    (check_special_get_balance tce ctx args cost).2.charges = cost.charges ∨
    ∃ a, (check_special_get_balance tce ctx args cost).2.charges =
      cost.charges ++ [a] := by
  unfold check_special_get_balance check_argument_count
  repeat' split
  all_goals
    first
    | (simp_all; done)
    | exact Or.inr ⟨_, runtime_cost_eq _ _ _ _ (by assumption)⟩

theorem mint_asset_at_most_one (tce : Tce) (ctx : ContractContext)
    (args : List SymbolicExpression) (cost : CostTracker) :
    (check_special_mint_asset tce ctx args cost).2.charges = cost.charges ∨
    ∃ a, (check_special_mint_asset tce ctx args cost).2.charges =
      cost.charges ++ [a] := by
  unfold check_special_mint_asset check_argument_count
  repeat' split
  all_goals
    first
    | (simp_all; done)
    | exact Or.inr ⟨_, runtime_cost_eq _ _ _ _ (by assumption)⟩

theorem mint_token_at_most_one (tce : Tce) (ctx : ContractContext)
    (args : List SymbolicExpression) (cost : CostTracker) :
    (check_special_mint_token tce ctx args cost).2.charges = cost.charges ∨
    ∃ a, (check_special_mint_token tce ctx args cost).2.charges =
      cost.charges ++ [a] := by
  unfold check_special_mint_token check_argument_count
  repeat' split
  all_goals
    first
    | (simp_all; done)
    | exact Or.inr ⟨_, runtime_cost_eq _ _ _ _ (by assumption)⟩

theorem transfer_asset_at_most_one (tce : Tce) (ctx : ContractContext)
    (args : List SymbolicExpression) (cost : CostTracker) :
    (check_special_transfer_asset tce ctx args cost).2.charges = cost.charges ∨
    ∃ a, (check_special_transfer_asset tce ctx args cost).2.charges =
      cost.charges ++ [a] := by
  unfold check_special_transfer_asset check_argument_count
  repeat' split
  all_goals
    first
    | (simp_all; done)
    | exact Or.inr ⟨_, runtime_cost_eq _ _ _ _ (by assumption)⟩

theorem transfer_token_at_most_one (tce : Tce) (ctx : ContractContext)
    (args : List SymbolicExpression) (cost : CostTracker) :
    (check_special_transfer_token tce ctx args cost).2.charges = cost.charges ∨
    ∃ a, (check_special_transfer_token tce ctx args cost).2.charges =
      cost.charges ++ [a] := by
  unfold check_special_transfer_token check_argument_count
  repeat' split
  all_goals
    first
    | (simp_all; done)
    | exact Or.inr ⟨_, runtime_cost_eq _ _ _ _ (by assumption)⟩

/-- C8 (amended): every asset/token handler performs at most one metering
call per invocation, and exactly one on every successful invocation, with
input size equal to the declared asset identifier type's size for the three
NFT operations and the constant 1 for the three FT operations; hence the
metered amount is a deterministic function of the declared schema, and
running the same check successfully twice meters twice that amount.  (A
handler invocation that fails before its metering point — e.g. on a
malformed or unknown asset name — performs no metering call at all.) -/
theorem asset_metering_C8 :
    (∀ tce ctx a0 rest cost t c',
      check_special_get_owner tce ctx (a0 :: rest) cost = (.ok t, c') →
        ∃ name ty, a0.match_atom = some name ∧
          ctx.get_nft_type name = some ty ∧
          c'.charges = cost.charges ++ [ty.type_size]) ∧
    (∀ tce ctx a0 rest cost t c',
      check_special_mint_asset tce ctx (a0 :: rest) cost = (.ok t, c') →
        ∃ name ty, a0.match_atom = some name ∧
          ctx.get_nft_type name = some ty ∧
          c'.charges = cost.charges ++ [ty.type_size]) ∧
    (∀ tce ctx a0 rest cost t c',
      check_special_transfer_asset tce ctx (a0 :: rest) cost = (.ok t, c') →
        ∃ name ty, a0.match_atom = some name ∧
          ctx.get_nft_type name = some ty ∧
          c'.charges = cost.charges ++ [ty.type_size]) ∧
    (∀ tce ctx args cost t c',
      check_special_get_balance tce ctx args cost = (.ok t, c') →
        c'.charges = cost.charges ++ [1]) ∧
    (∀ tce ctx args cost t c',
      check_special_mint_token tce ctx args cost = (.ok t, c') →
        c'.charges = cost.charges ++ [1]) ∧
    (∀ tce ctx args cost t c',
      check_special_transfer_token tce ctx args cost = (.ok t, c') →
        c'.charges = cost.charges ++ [1]) ∧
    (∀ tce ctx args cost,
      (check_special_get_owner tce ctx args cost).2.charges = cost.charges ∨
      ∃ a, (check_special_get_owner tce ctx args cost).2.charges =
        cost.charges ++ [a]) ∧
    (∀ tce ctx args cost,
      (check_special_get_balance tce ctx args cost).2.charges = cost.charges ∨
      ∃ a, (check_special_get_balance tce ctx args cost).2.charges =
        cost.charges ++ [a]) ∧
    (∀ tce ctx args cost,
      (check_special_mint_asset tce ctx args cost).2.charges = cost.charges ∨
      ∃ a, (check_special_mint_asset tce ctx args cost).2.charges =
        cost.charges ++ [a]) ∧
    (∀ tce ctx args cost,
      (check_special_mint_token tce ctx args cost).2.charges = cost.charges ∨
      ∃ a, (check_special_mint_token tce ctx args cost).2.charges =
        cost.charges ++ [a]) ∧
    (∀ tce ctx args cost,
      (check_special_transfer_asset tce ctx args cost).2.charges =
        cost.charges ∨
      ∃ a, (check_special_transfer_asset tce ctx args cost).2.charges =
        cost.charges ++ [a]) ∧
    (∀ tce ctx args cost,
      (check_special_transfer_token tce ctx args cost).2.charges =
        cost.charges ∨
      ∃ a, (check_special_transfer_token tce ctx args cost).2.charges =
        cost.charges ++ [a]) ∧
    (∀ tce ctx a0 rest cost t1 c1 t2 c2,
      check_special_get_owner tce ctx (a0 :: rest) cost = (.ok t1, c1) →
      check_special_get_owner tce ctx (a0 :: rest) c1 = (.ok t2, c2) →
        ∃ a, c2.charges = cost.charges ++ [a, a]) ∧
    (∀ tce ctx args cost t1 c1 t2 c2,
      check_special_transfer_token tce ctx args cost = (.ok t1, c1) →
      check_special_transfer_token tce ctx args c1 = (.ok t2, c2) →
        c2.charges = cost.charges ++ [1, 1]) := by
  refine ⟨?_, ?_, ?_, ?_, ?_, ?_, ?_, ?_, ?_, ?_, ?_, ?_, ?_, ?_⟩
  · intro tce ctx a0 rest cost t c' h
    exact get_owner_ok_meter tce ctx a0 rest cost t c' h
  · intro tce ctx a0 rest cost t c' h
    exact mint_asset_ok_meter tce ctx a0 rest cost t c' h
  · intro tce ctx a0 rest cost t c' h
    exact transfer_asset_ok_meter tce ctx a0 rest cost t c' h
  · intro tce ctx args cost t c' h
    exact get_balance_ok_meter tce ctx args cost t c' h
  · intro tce ctx args cost t c' h
    exact mint_token_ok_meter tce ctx args cost t c' h
  · intro tce ctx args cost t c' h
    exact transfer_token_ok_meter tce ctx args cost t c' h
  · exact get_owner_at_most_one
  · exact get_balance_at_most_one
  · exact mint_asset_at_most_one
  · exact mint_token_at_most_one
  · exact transfer_asset_at_most_one
  · exact transfer_token_at_most_one
  · intro tce ctx a0 rest cost t1 c1 t2 c2 h1 h2
    obtain ⟨n1, ty1, hm1, hn1, hc1⟩ :=
      get_owner_ok_meter tce ctx a0 rest cost t1 c1 h1
    obtain ⟨n2, ty2, hm2, hn2, hc2⟩ :=
      get_owner_ok_meter tce ctx a0 rest c1 t2 c2 h2
    rw [hm1, Option.some.injEq] at hm2
    subst hm2
    rw [hn1, Option.some.injEq] at hn2
    subst hn2
    refine ⟨ty1.type_size, ?_⟩
    rw [hc2, hc1, List.append_assoc]
    rfl
  · intro tce ctx args cost t1 c1 t2 c2 h1 h2
    have hc1 := transfer_token_ok_meter tce ctx args cost t1 c1 h1
    have hc2 := transfer_token_ok_meter tce ctx args c1 t2 c2 h2
    rw [hc2, hc1, List.append_assoc]
    rfl

theorem asset_metering_C8_counterexample :
    (check_special_get_owner tceOk ctx1
        [.List [], .Atom "x"] cost0).1 = .error .BadTokenName ∧
    (check_special_get_owner tceOk ctx1
        [.List [], .Atom "x"] cost0).2.charges = [] ∧
    ([] : List Nat).length ≠ 1 := by
  refine ⟨rfl, rfl, by decide⟩

theorem asset_metering_C8_witness :
    ∃ name ty, (SymbolicExpression.Atom "stackaroo").match_atom = some name ∧
      ctx1.get_nft_type name = some ty ∧
      (check_special_get_owner tceOk ctx1
        [.Atom "stackaroo", .Atom "x"] cost0).2.charges =
        cost0.charges ++ [ty.type_size] :=
  asset_metering_C8.1 tceOk ctx1 (.Atom "stackaroo") [.Atom "x"] cost0
    (.OptionalType .PrincipalType) { budget := 1000, charges := [16] } rfl

theorem foldl_add_implemented_sorted (tids : List TraitIdentifier)
    (ca : ContractAnalysis) (h : ca.implemented_traits.Sorted (· < ·)) :
    ((tids.foldl (fun ca t => ca.add_implemented_trait t) ca).implemented_traits).Sorted
      (· < ·) := by
  induction tids generalizing ca with
  | nil => simpa using h
  | cons t rest ih =>
    simp only [List.foldl_cons]
    refine ih _ ?_
    simpa [ContractAnalysis.add_implemented_trait] using
      sorted_btreeInsert t ca.implemented_traits h

/-- C9 (amended): both compliance passes iterate the implemented-interface
set in its stored order, which is the canonical sorted order however the
identities were inserted, so the first failing interface is the least one;
Phase 2 iterates an interface's required methods in the catalog's sorted
method-name order — the declaration order of the methods is not retained by
the ordered catalog — so the first error reported is determined by those two
sorted orders. -/
theorem iteration_order_C9 :
    (∀ (cid : QualifiedContractIdentifier) (exprs : List SymbolicExpression)
        (tids : List TraitIdentifier),
      ((tids.foldl (fun ca t => ca.add_implemented_trait t)
        (ContractAnalysis.new cid exprs)).implemented_traits).Sorted (· < ·)) ∧
    (∀ (decls : List (ClarityName × FunctionSignature)),
      (btreeMapOfList decls).Pairwise
        (fun p q => p.1 < q.1)) ∧
    (∀ (step : TraitIdentifier → Except CheckErrors Unit) t rest e,
      step t = .error e → runTraits step (t :: rest) = .error e) ∧
    (∀ (impl defining : ContractAnalysis) (tn : String) (m1 : ClarityName)
        (sig1 : FunctionSignature) (rest : List (ClarityName × FunctionSignature)),
      impl.public_function_types = [] →
      checkTraitMethods impl defining tn ((m1, sig1) :: rest) =
        .error (.BadTraitImplementation tn m1)) := by
  refine ⟨?_, ?_, ?_, ?_⟩
  · intro cid exprs tids
    exact foldl_add_implemented_sorted tids (ContractAnalysis.new cid exprs)
      (by simp [ContractAnalysis.new])
  · intro decls
    exact sorted_btreeMapOfList decls
  · intro step t rest e h
    simp [runTraits, h]
  · intro impl defining tn m1 sig1 rest h
    simp [checkTraitMethods, checkTraitMethod,
      ContractAnalysis.get_public_function_type, h, btreeMapGet]

def sigU : FunctionSignature :=
  { args := [.UIntType], returns := .ResponseType .UIntType .UIntType }

/-- A trait whose methods are declared in the order `b-method`, `a-method`:
the ordered catalog retains only the sorted key order. -/
def definingC9 : ContractAnalysis :=
  (ContractAnalysis.new cidA []).add_defined_trait "trait-1"
    (btreeMapOfList [("b-method", sigU), ("a-method", sigU)])

def implC9 : ContractAnalysis :=
  (ContractAnalysis.new cidB []).add_implemented_trait
    { name := "trait-1", contract_identifier := cidA }

def dbC9 : AnalysisDatabase :=
  fun cid => if cid = cidA then some definingC9 else none

theorem iteration_order_C9_counterexample :
    btreeMapOfList [("b-method", sigU), ("a-method", sigU)] =
      [("a-method", sigU), ("b-method", sigU)] ∧
    postTypeCheckRun dbC9 implC9 =
      .error (.BadTraitImplementation "trait-1" "a-method") ∧
    ("a-method" : String) ≠ "b-method" := by
  refine ⟨?_, ?_, ?_⟩
  · simp [btreeMapOfList, btreeMapInsert]
    decide
  · simp [postTypeCheckRun, runTraits, postCheckTrait,
      AnalysisDatabase.load_contract, dbC9, definingC9, implC9,
      ContractAnalysis.new, ContractAnalysis.add_defined_trait,
      ContractAnalysis.add_implemented_trait, ContractAnalysis.get_defined_trait,
      ContractAnalysis.get_public_function_type, btreeMapOfList, btreeMapInsert,
      btreeMapGet, btreeInsert, checkTraitMethods, checkTraitMethod, cidA, cidB]
  · decide

theorem iteration_order_C9_witness :
    checkTraitMethods (ContractAnalysis.new cidB []) definingC9 "trait-1"
      [("a-method", sigU), ("b-method", sigU)] =
      .error (.BadTraitImplementation "trait-1" "a-method") :=
  iteration_order_C9.2.2.2 (ContractAnalysis.new cidB []) definingC9 "trait-1"
    "a-method" sigU [("b-method", sigU)] rfl

theorem driveIterator_yield (f : Nat) (it : ExpressionsIterator)
    (e : SymbolicExpression) (it' : ExpressionsIterator)
    (h : it.next = .yield e it') :
    driveIterator (f + 1) it =
      (driveIterator f it').map (fun l => e :: l) := by
  simp only [driveIterator, h]

theorem drive_aux (exprs : List SymbolicExpression) (s : List Nat)
    (hs : exprs.length ≤ s.length) (hv : ∀ j ∈ s, j < exprs.length) :
    ∀ d k, exprs.length - k = d → k ≤ exprs.length →
    driveIterator (d + 1)
      { expressions := exprs, sorting := some s, index := k } =
      some (((s.drop k).take d).map (fun i => exprs.getD i default)) := by
  intro d
  induction d with
  | zero =>
    intro k hd hk
    have hk' : k = exprs.length := by omega
    subst hk'
    simp [driveIterator, ExpressionsIterator.next]
  | succ d ih =>
    intro k hd hk
    have hklt : k < exprs.length := by omega
    have hks : k < s.length := by omega
    have hj : s[k]? = some s[k] := by simp [hks]
    have hjmem : s[k] ∈ s := List.getElem_mem hks
    have hjlt : s[k] < exprs.length := hv s[k] hjmem
    have he : exprs[s[k]]? = some exprs[s[k]] := by simp [hjlt]
    have hnext : ExpressionsIterator.next
        { expressions := exprs, sorting := some s, index := k } =
        .yield exprs[s[k]]
          { expressions := exprs, sorting := some s, index := k + 1 } := by
      simp only [ExpressionsIterator.next]
      rw [if_neg (by simp; omega)]
      simp only [List.get?_eq_getElem?, hj, he]
    rw [driveIterator_yield (d + 1) _ _ _ hnext]
    rw [ih (k + 1) (by omega) (by omega)]
    have hdrop : s.drop k = s[k] :: s.drop (k + 1) := List.drop_eq_getElem_cons hks
    rw [hdrop]
    simp only [List.take_succ_cons, List.map_cons, Option.map_some]
    have hgetd : exprs.getD s[k] default = exprs[s[k]] :=
      List.getD_eq_getElem exprs default hjlt
    rw [hgetd]
    rfl

/-- C10: with a top-level ordering `some s`, `ExpressionsIterator::next`
reads the indirection `s[index]` without a bounds check, so the iterator
yields the expression sequence in the order given by `s` (one `next` per
expression, no panic) exactly under the precondition that `s` is at least as
long as the expression list and every entry of `s` is a valid expression
index; and a record built by `ContractAnalysis::new` — whose ordering is
`Some` of an empty vector — paired with a non-empty expression list violates
that precondition and panics on the very first `next` call. -/
theorem expressions_iter_precondition_C10 :
    (∀ (ca : ContractAnalysis) (s : List Nat),
      ca.top_level_expression_sorting = some s →
      ca.expressions.length ≤ s.length →
      (∀ j ∈ s, j < ca.expressions.length) →
      driveIterator (ca.expressions.length + 1) ca.expressions_iter =
        some ((s.take ca.expressions.length).map
          (fun i => ca.expressions.getD i default))) ∧
    (∀ (cid : QualifiedContractIdentifier) (e : SymbolicExpression)
        (es : List SymbolicExpression),
      (ContractAnalysis.new cid (e :: es)).expressions_iter.next = .panic) := by
  constructor
  · intro ca s hsort hlen hvalid
    have h := drive_aux ca.expressions s hlen hvalid ca.expressions.length 0
      (by omega) (by omega)
    have hit : ca.expressions_iter =
        { expressions := ca.expressions, sorting := some s, index := 0 } := by
      simp [ContractAnalysis.expressions_iter, hsort]
    rw [hit]
    simpa using h
  · intro cid e es
    simp [ContractAnalysis.new, ContractAnalysis.expressions_iter,
      ExpressionsIterator.next]

def caC10 : ContractAnalysis :=
  { ContractAnalysis.new cidA [.Atom "first", .Atom "second"] with
    top_level_expression_sorting := some [1, 0] }

theorem expressions_iter_precondition_C10_witness :
    driveIterator 3 caC10.expressions_iter =
      some (([1, 0].take 2).map (fun i => caC10.expressions.getD i default)) ∧
    (ContractAnalysis.new cidA
      [.Atom "lone"]).expressions_iter.next = .panic := by
  constructor
  · exact expressions_iter_precondition_C10.1 caC10 [1, 0] rfl (by decide)
      (by decide)
  · exact expressions_iter_precondition_C10.2 cidA (.Atom "lone") []

theorem resolveTraitAlias_error (ca : ContractAnalysis) (aliasName : ClarityName)
    (e : CheckErrors) (h : resolveTraitAlias ca aliasName = .error e) :
    e = .TraitReferenceUnknown aliasName := by
  unfold resolveTraitAlias at h
  repeat' split at h
  all_goals simp_all

theorem resolveTraitRefs_error (ca : ContractAnalysis) (l : List ClarityName)
    (e : CheckErrors) (h : resolveTraitRefs ca l = .error e) :
    ∃ n, e = .TraitReferenceUnknown n := by
  induction l with
  | nil => simp [resolveTraitRefs] at h
  | cons n rest ih =>
    unfold resolveTraitRefs at h
    split at h
    · cases h
      exact ⟨n, resolveTraitAlias_error ca n _ (by assumption)⟩
    · split at h
      · cases h
        exact ih (by assumption)
      · cases h

theorem traitEdges_error (contracts : List ContractAnalysis)
    (tid : TraitIdentifier) (e : CheckErrors)
    (h : traitEdges contracts tid = .error e) : isCycleFailure e := by
  unfold traitEdges at h
  split at h
  · cases h
    exact Or.inr ⟨_, rfl⟩
  · split at h
    · cases h
      exact Or.inr ⟨_, rfl⟩
    · obtain ⟨n, hn⟩ := resolveTraitRefs_error _ _ _ h
      exact Or.inr ⟨n, hn⟩

theorem visitSuccs_error_kind (contracts : List ContractAnalysis) (fuel : Nat)
    (hP : ∀ path tid e, visitTrait contracts fuel path tid = .error e →
      isCycleFailure e) :
    ∀ path l e, visitSuccs contracts fuel path l = .error e →
      isCycleFailure e := by
  intro path l
  induction l with
  | nil => intro e h; simp [visitSuccs] at h
  | cons t rest ih =>
    intro e h
    unfold visitSuccs at h
    split at h
    · cases h
      exact hP path t e (by assumption)
    · exact ih e h

theorem visitTrait_error_kind (contracts : List ContractAnalysis) :
    ∀ fuel path tid e, visitTrait contracts fuel path tid = .error e →
      isCycleFailure e := by
  intro fuel
  induction fuel with
  | zero =>
    intro path tid e h
    unfold visitTrait at h
    cases h
    exact Or.inl ⟨_, rfl⟩
  | succ fuel ih =>
    intro path tid e h
    unfold visitTrait at h
    split at h
    · cases h
      exact Or.inl ⟨_, rfl⟩
    · split at h
      · cases h
        exact traitEdges_error contracts tid e (by assumption)
      · exact visitSuccs_error_kind contracts fuel ih _ _ e h

theorem visitSuccs_ok (contracts : List ContractAnalysis) (fuel : Nat)
    (path : List TraitIdentifier) (l : List TraitIdentifier)
    (h : visitSuccs contracts fuel path l = .ok ()) :
    ∀ t ∈ l, visitTrait contracts fuel path t = .ok () := by
  induction l with
  | nil => intro t ht; simp at ht
  | cons u rest ih =>
    intro t ht
    unfold visitSuccs at h
    split at h
    · cases h
    · rcases List.mem_cons.mp ht with ht | ht
      · subst ht
        assumption
      · exact ih h t ht

theorem visitTrait_ok (contracts : List ContractAnalysis) (fuel : Nat)
    (path : List TraitIdentifier) (tid : TraitIdentifier)
    (h : visitTrait contracts (fuel + 1) path tid = .ok ()) :
    tid ∉ path ∧ ∃ succs, traitEdges contracts tid = .ok succs ∧
      visitSuccs contracts fuel (tid :: path) succs = .ok () := by
  unfold visitTrait at h
  split at h
  · cases h
  · rename_i hnotin
    refine ⟨hnotin, ?_⟩
    split at h
    · cases h
    · rename_i succs hsuccs
      exact ⟨succs, hsuccs, h⟩

theorem cycle_not_ok (contracts : List ContractAnalysis)
    (c : List TraitIdentifier) (hc : IsTraitCycle contracts c) :
    ∀ fuel path i, i < c.length →
      visitTrait contracts fuel path (c.getD i default) ≠ .ok () := by
  intro fuel
  induction fuel with
  | zero =>
    intro path i hi h
    simp [visitTrait] at h
  | succ fuel ih =>
    intro path i hi h
    obtain ⟨hnotin, succs, hedges, hsuccs⟩ :=
      visitTrait_ok contracts fuel path _ h
    have hstep := hc.2 i hi
    unfold cycleStepOk at hstep
    rw [hedges] at hstep
    have hmem : c.getD ((i + 1) % c.length) default ∈ succs :=
      of_decide_eq_true hstep
    have hnext := visitSuccs_ok contracts fuel _ succs hsuccs _ hmem
    exact ih (c.getD i default :: path) ((i + 1) % c.length)
      (Nat.mod_lt _ (by omega)) hnext

theorem btreeMapGet_mem {κ ν : Type} [DecidableEq κ] (m : List (κ × ν))
    (k : κ) (v : ν) (h : btreeMapGet m k = some v) : (k, v) ∈ m := by
  induction m with
  | nil => simp [btreeMapGet] at h
  | cons p rest ih =>
    obtain ⟨k', v'⟩ := p
    unfold btreeMapGet at h
    split at h
    · rename_i heq
      cases h
      subst heq
      exact List.mem_cons_self _ _
    · exact List.mem_cons.mpr (Or.inr (ih h))

theorem traitEdges_ok_mem (contracts : List ContractAnalysis)
    (tid : TraitIdentifier) (succs : List TraitIdentifier)
    (h : traitEdges contracts tid = .ok succs) :
    tid ∈ allTraitIds contracts := by
  unfold traitEdges at h
  split at h
  · cases h
  · rename_i ca hfind
    split at h
    · cases h
    · rename_i methods hget
      have hca : ca ∈ contracts := List.mem_of_find?_eq_some hfind
      have hcid : ca.contract_identifier = tid.contract_identifier := by
        have := List.find?_some hfind
        exact of_decide_eq_true this
      have hdef : (tid.name, methods) ∈ ca.defined_traits :=
        btreeMapGet_mem _ _ _ hget
      unfold allTraitIds
      rw [List.mem_flatMap]
      refine ⟨ca, hca, ?_⟩
      rw [List.mem_map]
      refine ⟨(tid.name, methods), hdef, ?_⟩
      rw [hcid]

/-- C4: for every contract set whose interface reference graph contains a
cycle — within one contract or across a chain of contracts importing each
other's interfaces — the acyclicity check terminates (it is a total
function) and rejects with a circular-reference or unresolved-reference
failure; no cyclic interface definition is ever accepted. -/
theorem trait_cycles_rejected_C4 (contracts : List ContractAnalysis)
    (c : List TraitIdentifier) (hc : IsTraitCycle contracts c) :
    ∃ e, checkTraitGraph contracts = .error e ∧ isCycleFailure e := by
  have h0 : 0 < c.length := List.length_pos.mpr hc.1
  have hstep0 := hc.2 0 h0
  unfold cycleStepOk at hstep0
  cases hE : traitEdges contracts (c.getD 0 default) with
  | error e =>
    rw [hE] at hstep0
    simp at hstep0
  | ok succs =>
    have hmem0 : c.getD 0 default ∈ allTraitIds contracts :=
      traitEdges_ok_mem contracts _ succs hE
    cases hres : checkTraitGraph contracts with
    | ok u =>
      cases u
      exfalso
      unfold checkTraitGraph at hres
      have hall := visitSuccs_ok contracts
        ((allTraitIds contracts).length + 1) [] (allTraitIds contracts) hres
      exact cycle_not_ok contracts c hc _ [] 0 h0 (hall _ hmem0)
    | error e =>
      refine ⟨e, rfl, ?_⟩
      unfold checkTraitGraph at hres
      exact visitSuccs_error_kind contracts _
        (visitTrait_error_kind contracts _) _ _ e hres

def sigRefT2 : FunctionSignature :=
  { args := [.TraitReferenceType "trait-2"],
    returns := .ResponseType .UIntType .UIntType }

def sigRefT1 : FunctionSignature :=
  { args := [.TraitReferenceType "trait-1"],
    returns := .ResponseType .UIntType .UIntType }

/-- One contract defining two interfaces that reference each other — the
shape of `test_cycle_in_traits_1_contract`. -/
def cycleContract : ContractAnalysis :=
  { ContractAnalysis.new cidA [] with
    defined_traits :=
      [("trait-1", [("get-1", sigRefT2)]),
       ("trait-2", [("get-2", sigRefT1)])] }

def cycleList : List TraitIdentifier :=
  [{ name := "trait-1", contract_identifier := cidA },
   { name := "trait-2", contract_identifier := cidA }]

theorem trait_cycles_rejected_C4_witness :
    ∃ e, checkTraitGraph [cycleContract] = .error e ∧ isCycleFailure e :=
  trait_cycles_rejected_C4 [cycleContract] cycleList ⟨by decide, by decide⟩
